import Mathlib

/-!
Verification of the bpfd/bpfman program registry and dispatcher model.

Shallow embedding of `src/bpfman/src/models.rs` and `src/bpfd/src/utils.rs`:
pure functions are translated to Lean functions, the sled-backed mutable
state is translated to explicit state passing, Rust `u32`/`i32` become
`Nat`/`Int` (the operations involved never overflow, which is proved where
relevant), and fallible code returns `Except`.
-/

namespace Bpfman

/-! ## Parse errors (constructed in `models.rs`, variants as used there) -/

inductive ParseError where
  | InvalidProgramType (program : String)
  | InvalidDirection (direction : String)
  | InvalidProceedOn (proceedon : String)
  | InvalidBytecodeImagePullPolicy (pull_policy : String)
  | InvalidProbeType (probe : String)
deriving DecidableEq

/-! ## XdpProceedOnEntry (`models.rs` 2074-2210) -/

inductive XdpProceedOnEntry where
  | Aborted
  | Drop
  | Pass
  | Tx
  | Redirect
  | DispatcherReturn
deriving DecidableEq

/-- Discriminant values of `XdpProceedOnEntry` (`DispatcherReturn = 31`),
used by `as u32` / `as i32` casts in the source. -/
def XdpProceedOnEntry.toU32 : XdpProceedOnEntry → Nat
  | .Aborted => 0
  | .Drop => 1
  | .Pass => 2
  | .Tx => 3
  | .Redirect => 4
  | .DispatcherReturn => 31

/-- `TryFrom<i32> for XdpProceedOnEntry` (`models.rs` 2122-2139). -/
def XdpProceedOnEntry.try_from_i32 (value : Int) : Except ParseError XdpProceedOnEntry :=
  if value = 0 then .ok .Aborted
  else if value = 1 then .ok .Drop
  else if value = 2 then .ok .Pass
  else if value = 3 then .ok .Tx
  else if value = 4 then .ok .Redirect
  else if value = 31 then .ok .DispatcherReturn
  else .error (.InvalidProceedOn (toString value))

/-- `Display for XdpProceedOnEntry` (`models.rs` 2141-2153). -/
def XdpProceedOnEntry.display : XdpProceedOnEntry → String
  | .Aborted => "aborted"
  | .Drop => "drop"
  | .Pass => "pass"
  | .Tx => "tx"
  | .Redirect => "redirect"
  | .DispatcherReturn => "dispatcher_return"

/-- `TryFrom<String> for XdpProceedOnEntry` (`models.rs` 2103-2120). -/
def XdpProceedOnEntry.try_from_string (value : String) : Except ParseError XdpProceedOnEntry :=
  if value = "aborted" then .ok .Aborted
  else if value = "drop" then .ok .Drop
  else if value = "pass" then .ok .Pass
  else if value = "tx" then .ok .Tx
  else if value = "redirect" then .ok .Redirect
  else if value = "dispatcher_return" then .ok .DispatcherReturn
  else .error (.InvalidProceedOn value)

/-- `XdpProceedOn` wraps `Vec<XdpProceedOnEntry>` (`models.rs` 2155-2156). -/
structure XdpProceedOn where
  entries : List XdpProceedOnEntry
deriving DecidableEq

/-- `Default for XdpProceedOn` (`models.rs` 2157-2164). -/
def XdpProceedOn.defaultValue : XdpProceedOn :=
  ⟨[.Pass, .DispatcherReturn]⟩

/-- `XdpProceedOn::from_int32s` (`models.rs` 2176-2186): empty input yields
the default, otherwise every entry is parsed and the first failure
propagates. -/
def XdpProceedOn.from_int32s (values : List Int) : Except ParseError XdpProceedOn :=
  if values.isEmpty then .ok XdpProceedOn.defaultValue
  else do
    let res ← values.mapM XdpProceedOnEntry.try_from_i32
    return ⟨res⟩

/-- `FromIterator<XdpProceedOnEntry> for XdpProceedOn` (`models.rs` 2084-2101):
an empty iterator yields the default. -/
def XdpProceedOn.from_iter (l : List XdpProceedOnEntry) : XdpProceedOn :=
  if l.isEmpty then XdpProceedOn.defaultValue else ⟨l⟩

/-- `XdpProceedOn::mask` (`models.rs` 2188-2194): fold of
`proceed_on_mask |= 1 << action as u32` over the entries.
All shift amounts are at most 31, so the `u32` arithmetic never
overflows and plain `Nat` is faithful. -/
def XdpProceedOn.mask (p : XdpProceedOn) : Nat :=
  p.entries.foldl (fun m a => m ||| (1 <<< a.toU32)) 0

/-! ## TcProceedOnEntry (`models.rs` 2212-2375) -/

inductive TcProceedOnEntry where
  | Unspec
  | Ok
  | Reclassify
  | Shot
  | Pipe
  | Stolen
  | Queued
  | Repeat
  | Redirect
  | Trap
  | DispatcherReturn
deriving DecidableEq

/-- Discriminant values of `TcProceedOnEntry` (`Unspec = -1`, `Ok = 0`, ...,
`Trap = 8`, `DispatcherReturn = 30`). -/
def TcProceedOnEntry.toI32 : TcProceedOnEntry → Int
  | .Unspec => -1
  | .Ok => 0
  | .Reclassify => 1
  | .Shot => 2
  | .Pipe => 3
  | .Stolen => 4
  | .Queued => 5
  | .Repeat => 6
  | .Redirect => 7
  | .Trap => 8
  | .DispatcherReturn => 30

/-- `TryFrom<i32> for TcProceedOnEntry` (`models.rs` 2251-2273). -/
def TcProceedOnEntry.try_from_i32 (value : Int) : Except ParseError TcProceedOnEntry :=
  if value = -1 then .ok .Unspec
  else if value = 0 then .ok .Ok
  else if value = 1 then .ok .Reclassify
  else if value = 2 then .ok .Shot
  else if value = 3 then .ok .Pipe
  else if value = 4 then .ok .Stolen
  else if value = 5 then .ok .Queued
  else if value = 6 then .ok .Repeat
  else if value = 7 then .ok .Redirect
  else if value = 8 then .ok .Trap
  else if value = 30 then .ok .DispatcherReturn
  else .error (.InvalidProceedOn (toString value))

/-- `Display for TcProceedOnEntry` (`models.rs` 2275-2292). -/
def TcProceedOnEntry.display : TcProceedOnEntry → String
  | .Unspec => "unspec"
  | .Ok => "ok"
  | .Reclassify => "reclassify"
  | .Shot => "shot"
  | .Pipe => "pipe"
  | .Stolen => "stolen"
  | .Queued => "queued"
  | .Repeat => "repeat"
  | .Redirect => "redirect"
  | .Trap => "trap"
  | .DispatcherReturn => "dispatcher_return"

/-- `TryFrom<String> for TcProceedOnEntry` (`models.rs` 2227-2249). -/
def TcProceedOnEntry.try_from_string (value : String) : Except ParseError TcProceedOnEntry :=
  if value = "unspec" then .ok .Unspec
  else if value = "ok" then .ok .Ok
  else if value = "reclassify" then .ok .Reclassify
  else if value = "shot" then .ok .Shot
  else if value = "pipe" then .ok .Pipe
  else if value = "stolen" then .ok .Stolen
  else if value = "queued" then .ok .Queued
  else if value = "repeat" then .ok .Repeat
  else if value = "redirect" then .ok .Redirect
  else if value = "trap" then .ok .Trap
  else if value = "dispatcher_return" then .ok .DispatcherReturn
  else .error (.InvalidProceedOn value)

/-- `TcProceedOn` wraps `Vec<TcProceedOnEntry>` (`models.rs` 2294-2295). -/
structure TcProceedOn where
  entries : List TcProceedOnEntry
deriving DecidableEq

/-- `Default for TcProceedOn` (`models.rs` 2296-2303). -/
def TcProceedOn.defaultValue : TcProceedOn :=
  ⟨[.Pipe, .DispatcherReturn]⟩

/-- `TcProceedOn::from_int32s` (`models.rs` 2333-2343). -/
def TcProceedOn.from_int32s (values : List Int) : Except ParseError TcProceedOn :=
  if values.isEmpty then .ok TcProceedOn.defaultValue
  else do
    let res ← values.mapM TcProceedOnEntry.try_from_i32
    return ⟨res⟩

/-- `FromIterator<TcProceedOnEntry> for TcProceedOn` (`models.rs` 2305-2321). -/
def TcProceedOn.from_iter (l : List TcProceedOnEntry) : TcProceedOn :=
  if l.isEmpty then TcProceedOn.defaultValue else ⟨l⟩

/-- `TcProceedOn::mask` (`models.rs` 2349-2355): fold of
`proceed_on_mask |= 1 << ((action as i32) + 1)`; the `+ 1` offsets the
`-1` of `Unspec` into a legal shift, every shift amount is at most 31. -/
def TcProceedOn.mask (p : TcProceedOn) : Nat :=
  p.entries.foldl (fun m a => m ||| (1 <<< (a.toI32 + 1).toNat)) 0

/-! ## ProgramType (`models.rs` 1780-2023) -/

inductive ProgramType where
  | Unspec
  | SocketFilter
  | Probe
  | Tc
  | SchedAct
  | Tracepoint
  | Xdp
  | PerfEvent
  | CgroupSkb
  | CgroupSock
  | LwtIn
  | LwtOut
  | LwtXmit
  | SockOps
  | SkSkb
  | CgroupDevice
  | SkMsg
  | RawTracepoint
  | CgroupSockAddr
  | LwtSeg6Local
  | LircMode2
  | SkReuseport
  | FlowDissector
  | CgroupSysctl
  | RawTracepointWritable
  | CgroupSockopt
  | Tracing
  | StructOps
  | Ext
  | Lsm
  | SkLookup
  | Syscall
deriving DecidableEq

/-- `From<ProgramType> for u32` (`models.rs` 1946-1983). -/
def ProgramType.toU32 : ProgramType → Nat
  | .Unspec => 0
  | .SocketFilter => 1
  | .Probe => 2
  | .Tc => 3
  | .SchedAct => 4
  | .Tracepoint => 5
  | .Xdp => 6
  | .PerfEvent => 7
  | .CgroupSkb => 8
  | .CgroupSock => 9
  | .LwtIn => 10
  | .LwtOut => 11
  | .LwtXmit => 12
  | .SockOps => 13
  | .SkSkb => 14
  | .CgroupDevice => 15
  | .SkMsg => 16
  | .RawTracepoint => 17
  | .CgroupSockAddr => 18
  | .LwtSeg6Local => 19
  | .LircMode2 => 20
  | .SkReuseport => 21
  | .FlowDissector => 22
  | .CgroupSysctl => 23
  | .RawTracepointWritable => 24
  | .CgroupSockopt => 25
  | .Tracing => 26
  | .StructOps => 27
  | .Ext => 28
  | .Lsm => 29
  | .SkLookup => 30
  | .Syscall => 31

/-- `TryFrom<u32> for ProgramType` (`models.rs` 1900-1944). -/
def ProgramType.try_from_u32 (value : Nat) : Except ParseError ProgramType :=
  if value = 0 then .ok .Unspec
  else if value = 1 then .ok .SocketFilter
  else if value = 2 then .ok .Probe
  else if value = 3 then .ok .Tc
  else if value = 4 then .ok .SchedAct
  else if value = 5 then .ok .Tracepoint
  else if value = 6 then .ok .Xdp
  else if value = 7 then .ok .PerfEvent
  else if value = 8 then .ok .CgroupSkb
  else if value = 9 then .ok .CgroupSock
  else if value = 10 then .ok .LwtIn
  else if value = 11 then .ok .LwtOut
  else if value = 12 then .ok .LwtXmit
  else if value = 13 then .ok .SockOps
  else if value = 14 then .ok .SkSkb
  else if value = 15 then .ok .CgroupDevice
  else if value = 16 then .ok .SkMsg
  else if value = 17 then .ok .RawTracepoint
  else if value = 18 then .ok .CgroupSockAddr
  else if value = 19 then .ok .LwtSeg6Local
  else if value = 20 then .ok .LircMode2
  else if value = 21 then .ok .SkReuseport
  else if value = 22 then .ok .FlowDissector
  else if value = 23 then .ok .CgroupSysctl
  else if value = 24 then .ok .RawTracepointWritable
  else if value = 25 then .ok .CgroupSockopt
  else if value = 26 then .ok .Tracing
  else if value = 27 then .ok .StructOps
  else if value = 28 then .ok .Ext
  else if value = 29 then .ok .Lsm
  else if value = 30 then .ok .SkLookup
  else if value = 31 then .ok .Syscall
  else .error (.InvalidProgramType (toString value))

/-- `Display for ProgramType` (`models.rs` 1985-2023). -/
def ProgramType.display : ProgramType → String
  | .Unspec => "unspec"
  | .SocketFilter => "socket_filter"
  | .Probe => "probe"
  | .Tc => "tc"
  | .SchedAct => "sched_act"
  | .Tracepoint => "tracepoint"
  | .Xdp => "xdp"
  | .PerfEvent => "perf_event"
  | .CgroupSkb => "cgroup_skb"
  | .CgroupSock => "cgroup_sock"
  | .LwtIn => "lwt_in"
  | .LwtOut => "lwt_out"
  | .LwtXmit => "lwt_xmit"
  | .SockOps => "sock_ops"
  | .SkSkb => "sk_skb"
  | .CgroupDevice => "cgroup_device"
  | .SkMsg => "sk_msg"
  | .RawTracepoint => "raw_tracepoint"
  | .CgroupSockAddr => "cgroup_sock_addr"
  | .LwtSeg6Local => "lwt_seg6local"
  | .LircMode2 => "lirc_mode2"
  | .SkReuseport => "sk_reuseport"
  | .FlowDissector => "flow_dissector"
  | .CgroupSysctl => "cgroup_sysctl"
  | .RawTracepointWritable => "raw_tracepoint_writable"
  | .CgroupSockopt => "cgroup_sockopt"
  | .Tracing => "tracing"
  | .StructOps => "struct_ops"
  | .Ext => "ext"
  | .Lsm => "lsm"
  | .SkLookup => "sk_lookup"
  | .Syscall => "syscall"

/-- `TryFrom<String> for ProgramType` (`models.rs` 1854-1898). -/
def ProgramType.try_from_string (value : String) : Except ParseError ProgramType :=
  if value = "unspec" then .ok .Unspec
  else if value = "socket_filter" then .ok .SocketFilter
  else if value = "probe" then .ok .Probe
  else if value = "tc" then .ok .Tc
  else if value = "sched_act" then .ok .SchedAct
  else if value = "tracepoint" then .ok .Tracepoint
  else if value = "xdp" then .ok .Xdp
  else if value = "perf_event" then .ok .PerfEvent
  else if value = "cgroup_skb" then .ok .CgroupSkb
  else if value = "cgroup_sock" then .ok .CgroupSock
  else if value = "lwt_in" then .ok .LwtIn
  else if value = "lwt_out" then .ok .LwtOut
  else if value = "lwt_xmit" then .ok .LwtXmit
  else if value = "sock_ops" then .ok .SockOps
  else if value = "sk_skb" then .ok .SkSkb
  else if value = "cgroup_device" then .ok .CgroupDevice
  else if value = "sk_msg" then .ok .SkMsg
  else if value = "raw_tracepoint" then .ok .RawTracepoint
  else if value = "cgroup_sock_addr" then .ok .CgroupSockAddr
  else if value = "lwt_seg6local" then .ok .LwtSeg6Local
  else if value = "lirc_mode2" then .ok .LircMode2
  else if value = "sk_reuseport" then .ok .SkReuseport
  else if value = "flow_dissector" then .ok .FlowDissector
  else if value = "cgroup_sysctl" then .ok .CgroupSysctl
  else if value = "raw_tracepoint_writable" then .ok .RawTracepointWritable
  else if value = "cgroup_sockopt" then .ok .CgroupSockopt
  else if value = "tracing" then .ok .Tracing
  else if value = "struct_ops" then .ok .StructOps
  else if value = "ext" then .ok .Ext
  else if value = "lsm" then .ok .Lsm
  else if value = "sk_lookup" then .ok .SkLookup
  else if value = "syscall" then .ok .Syscall
  else .error (.InvalidProgramType value)

/-! ## Direction (`models.rs` 260-301) -/

inductive Direction where
  | Ingress
  | Egress
deriving DecidableEq

/-- Discriminant values of `Direction` (`Ingress = 1`, `Egress = 2`). -/
def Direction.toU32 : Direction → Nat
  | .Ingress => 1
  | .Egress => 2

/-- `TryFrom<u32> for Direction` (`models.rs` 266-278). -/
def Direction.try_from_u32 (v : Nat) : Except ParseError Direction :=
  if v = 1 then .ok .Ingress
  else if v = 2 then .ok .Egress
  else .error (.InvalidDirection (toString v))

/-- `Display for Direction` (`models.rs` 294-301). -/
def Direction.display : Direction → String
  | .Ingress => "ingress"
  | .Egress => "egress"

/-- `TryFrom<String> for Direction` (`models.rs` 280-292). -/
def Direction.try_from_string (v : String) : Except ParseError Direction :=
  if v = "ingress" then .ok .Ingress
  else if v = "egress" then .ok .Egress
  else .error (.InvalidDirection v)

/-! ## ImagePullPolicy (`models.rs` 2377-2435) -/

inductive ImagePullPolicy where
  | Always
  | IfNotPresent
  | Never
deriving DecidableEq

/-- `From<ImagePullPolicy> for i32` (`models.rs` 2427-2435). -/
def ImagePullPolicy.toI32 : ImagePullPolicy → Int
  | .Always => 0
  | .IfNotPresent => 1
  | .Never => 2

/-- `TryFrom<i32> for ImagePullPolicy` (`models.rs` 2395-2409). -/
def ImagePullPolicy.try_from_i32 (value : Int) : Except ParseError ImagePullPolicy :=
  if value = 0 then .ok .Always
  else if value = 1 then .ok .IfNotPresent
  else if value = 2 then .ok .Never
  else .error (.InvalidBytecodeImagePullPolicy (toString value))

/-- `Display for ImagePullPolicy` (`models.rs` 2384-2393). -/
def ImagePullPolicy.display : ImagePullPolicy → String
  | .Always => "Always"
  | .IfNotPresent => "IfNotPresent"
  | .Never => "Never"

/-- `TryFrom<&str> for ImagePullPolicy` (`models.rs` 2411-2425). -/
def ImagePullPolicy.try_from_string (value : String) : Except ParseError ImagePullPolicy :=
  if value = "Always" then .ok .Always
  else if value = "IfNotPresent" then .ok .IfNotPresent
  else if value = "Never" then .ok .Never
  else .error (.InvalidBytecodeImagePullPolicy value)

/-! ## Programs and list filtering (`models.rs` 91-165, 1474-1486)

A `Program` is one of the daemon-managed variants or `Unsupported`; for
the purposes of `ListFilter::matches` a program is characterised by its
variant tag, its kernel-reported program type (`get_kernel_program_type`,
an `Err` when the sled key is absent, modelled as `none`) and its
metadata map (modelled as an association list; `HashMap` iteration order
does not affect the conjunction computed below). -/

inductive ProgKind where
  | Xdp
  | Tc
  | Tracepoint
  | Kprobe
  | Uprobe
  | Fentry
  | Fexit
  | Unsupported
deriving DecidableEq

structure ProgramModel where
  kind : ProgKind
  kernel_program_type : Option Nat
  metadata : List (String × String)
deriving DecidableEq

/-- `Program::kind` (`models.rs` 1475-1486) composed with
`Into::<u32>::into` as used at `models.rs` 139: the daemon-recorded kind
of a daemon-managed program.  For `Unsupported` the source unwraps the
kernel program type; that case is modelled where it is used. -/
def ProgramModel.kind_u32 (p : ProgramModel) : Nat :=
  match p.kind with
  | .Xdp => ProgramType.toU32 .Xdp
  | .Tc => ProgramType.toU32 .Tc
  | .Tracepoint => ProgramType.toU32 .Tracepoint
  | .Kprobe => ProgramType.toU32 .Probe
  | .Uprobe => ProgramType.toU32 .Probe
  | .Fentry => ProgramType.toU32 .Tracing
  | .Fexit => ProgramType.toU32 .Tracing
  | .Unsupported => (p.kernel_program_type).getD 0

/-- Metadata lookup, modelling `HashMap::get`. -/
def mlookup (key : String) : List (String × String) → Option String
  | [] => none
  | kv :: rest => if kv.1 = key then some kv.2 else mlookup key rest

/-- `ListFilter` (`models.rs` 91-96). -/
structure ListFilter where
  program_type : Option Nat
  metadata_selector : List (String × String)
  bpfman_programs_only : Bool
deriving DecidableEq

/-- `ListFilter::matches` (`models.rs` 111-165), translated with the
early returns folded into nested conditionals in source order. -/
def ListFilter.matches (f : ListFilter) (program : ProgramModel) : Bool :=
  if program.kind = .Unsupported then
    if f.bpfman_programs_only then false
    else
      match f.program_type with
      | some prog_type =>
        match program.kernel_program_type with
        | some kernel_prog_type =>
          if kernel_prog_type ≠ prog_type then false
          else decide (f.metadata_selector = [])
        | none => false
      | none => decide (f.metadata_selector = [])
  else
    let prog_type_internal := program.kind_u32
    (match f.program_type with
     | some prog_type => decide (prog_type_internal = prog_type)
     | none => true) &&
    f.metadata_selector.all fun kv =>
      match mlookup kv.1 program.metadata with
      | some v => decide (v = kv.2)
      | none => false

/-! ## Bytecode resolution (`models.rs` 229-258, 899-939; `bpfd/src/utils.rs` 21-33)

The filesystem and the OCI image manager are external collaborators;
they enter the model as explicit function arguments.  `utils::read`
opens the file with `O_NOCTTY` in its `OpenOptions`; the options record
is modelled explicitly so that the flag is visible in the embedding. -/

/-- Open options passed by `read` (`bpfd/src/utils.rs` 21-33):
`custom_flags(O_NOCTTY).read(true)`. -/
structure OpenOptions where
  custom_flags : Int
  read_flag : Bool
deriving DecidableEq

/-- `libc::O_NOCTTY` on Linux (octal 0400). -/
def O_NOCTTY : Int := 256

/-- The options with which `read` (`bpfd/src/utils.rs` 21-33) opens a
bytecode file. -/
def readOptions : OpenOptions :=
  { custom_flags := O_NOCTTY, read_flag := true }

/-- `read` (`bpfd/src/utils.rs` 21-33): open the file with `O_NOCTTY`
set and read all bytes; errors are file-IO errors (`Error(String)`). -/
def fsRead (openFile : OpenOptions → String → Except String (List Nat))
    (path : String) : Except String (List Nat) :=
  openFile readOptions path

inductive BpfmanError where
  | ProgramNotFoundInBytecode (bytecode_image : String) (expected_prog_name : String)
      (program_names : List String)
  | FileReadError (msg : String)
  | ImageFetchError (msg : String)
  | DatabaseError (op cause : String)
deriving DecidableEq

/-- `BytecodeImage` (`models.rs` 59-64). -/
structure BytecodeImage where
  image_url : String
  image_pull_policy : ImagePullPolicy
  username : Option String
  password : Option String
deriving DecidableEq

/-- `Location` (`models.rs` 229-233). -/
inductive Location where
  | File (path : String)
  | Image (img : BytecodeImage)
deriving DecidableEq

/-- `Location::get_program_bytes` (`models.rs` 236-258): a file is read
through `read` and paired with an empty symbol list; an image is
resolved by the image manager, which returns the bytes and the
`bpf_function_names` symbol list.  IO-level failures of either
collaborator surface as their own error kinds, never as
`ProgramNotFoundInBytecode`. -/
def Location.get_program_bytes
    (openFile : OpenOptions → String → Except String (List Nat))
    (imageGet : String → ImagePullPolicy → Option String → Option String →
      Except String (List Nat × List String)) :
    Location → Except BpfmanError (List Nat × List String)
  | .File l =>
    match fsRead openFile l with
    | .error e => .error (.FileReadError e)
    | .ok bytes => .ok (bytes, [])
  | .Image l =>
    match imageGet l.image_url l.image_pull_policy l.username l.password with
    | .error e => .error (.ImageFetchError e)
    | .ok (bytecode, bpf_function_names) => .ok (bytecode, bpf_function_names)

/-- The fields of `ProgramData` that `set_program_bytes` touches
(`models.rs` 903-939): the sled keys `NAME`, the location keys, and
`PROGRAM_BYTES` (absent until written). -/
structure PDState where
  name : String
  location : Location
  program_bytes : Option (List Nat)
deriving DecidableEq

/-- `ProgramData::set_program_bytes` (`models.rs` 903-939): resolve the
location; for an image, error with `ProgramNotFoundInBytecode` when the
declared name is not among the returned symbols, leaving the state
untouched; otherwise persist the bytes under `PROGRAM_BYTES`. -/
def PDState.set_program_bytes
    (openFile : OpenOptions → String → Except String (List Nat))
    (imageGet : String → ImagePullPolicy → Option String → Option String →
      Except String (List Nat × List String))
    (st : PDState) : Except BpfmanError Unit × PDState :=
  match st.location.get_program_bytes openFile imageGet with
  | .error e => (.error e, st)
  | .ok (v, s) =>
    match st.location with
    | .Image l =>
      let provided_name := st.name
      if provided_name ∈ s then
        (.ok (), { st with name := provided_name, program_bytes := some v })
      else
        (.error (.ProgramNotFoundInBytecode l.image_url provided_name s), st)
    | .File _ => (.ok (), { st with program_bytes := some v })

/-! ## Retprobe persistence (`models.rs` 1276-1288, 1361-1373)

`set_retprobe` stores `(retprobe as i8 % 2).to_ne_bytes()`, a single
byte; `get_retprobe` reads it back through `bytes_to_bool`. -/

/-- Modelled from the spec: `bytes_to_bool` from the bpfman `utils`
module (not under `src/`), which interprets a stored byte as a boolean;
a nonzero leading byte is `true` (§4.1 stores numeric fields as
fixed-endianness bytes, and §9 treats the retprobe field as a boolean
whose stored value is 0 or 1 only). -/
def bytes_to_bool (bytes : List Int) : Bool :=
  bytes.getD 0 0 ≠ 0

/-- The byte list stored by `KprobeProgram::set_retprobe`
(`models.rs` 1276-1282): `(retprobe as i8 % 2).to_ne_bytes()`.
`%` is Rust's remainder, which on the non-negative values 0 and 1
agrees with `Int.emod`. -/
def KprobeProgram.set_retprobe_stored (retprobe : Bool) : List Int :=
  [(if retprobe then (1 : Int) else 0) % 2]

/-- `KprobeProgram::get_retprobe` (`models.rs` 1284-1288) applied to a
stored byte list: `bytes_to_bool`, defaulting to `false` when the key
is absent. -/
def KprobeProgram.get_retprobe_of (stored : Option (List Int)) : Bool :=
  (stored.map bytes_to_bool).getD false

/-- The byte list stored by `UprobeProgram::set_retprobe`
(`models.rs` 1361-1367), identical to the kprobe setter. -/
def UprobeProgram.set_retprobe_stored (retprobe : Bool) : List Int :=
  [(if retprobe then (1 : Int) else 0) % 2]

/-- `UprobeProgram::get_retprobe` (`models.rs` 1369-1373). -/
def UprobeProgram.get_retprobe_of (stored : Option (List Int)) : Bool :=
  (stored.map bytes_to_bool).getD false

/-! ## Dispatcher chains (spec §4.4; `Program::set_position`,
`models.rs` 1533-1541, and `set_current_position`, 1044-1050, 1153-1159)

The dispatcher engine itself (the `multiprog` module) is not under
`src/`; only the position setters it calls are.  The chain computation
is therefore modelled from the spec. -/

/-- A chain member as the engine orders it: a program id and its
priority (spec §3: priority is a signed 32-bit integer, ids are 32-bit;
only comparisons are performed, so `Int`/`Nat` are faithful). -/
structure ChainMember where
  id : Nat
  priority : Int
deriving DecidableEq

/-- The ordering of Invariant 1: `(priority ascending, id ascending)`. -/
def memberLe (a b : ChainMember) : Prop :=
  a.priority < b.priority ∨ (a.priority = b.priority ∧ a.id ≤ b.id)

instance : DecidableRel memberLe := fun a b => by
  unfold memberLe
  infer_instance

instance : IsTotal ChainMember memberLe := by
  constructor
  intro a b
  unfold memberLe
  omega

instance : IsTrans ChainMember memberLe := by
  constructor
  intro a b c hab hbc
  unfold memberLe at hab hbc ⊢
  omega

instance : IsAntisymm ChainMember memberLe := by
  constructor
  intro a b hab hba
  obtain ⟨ia, pa⟩ := a
  obtain ⟨ib, pb⟩ := b
  unfold memberLe at hab hba
  simp only at hab hba
  simp only [ChainMember.mk.injEq]
  omega

inductive DispatcherOp where
  | add (m : ChainMember)
  | remove (id : Nat)

/-- Modelled from the spec: one step of the dispatcher engine (§4.4).
Add computes the new chain as the existing members plus the new one,
sorted as in Invariant 1; remove recomputes the chain without the
removed id. -/
def applyOp (chain : List ChainMember) : DispatcherOp → List ChainMember
  | .add m => List.insertionSort memberLe (m :: chain)
  | .remove i => chain.filter fun x => x.id ≠ i

/-- The chain reached from the empty chain by a sequence of add/remove
operations. -/
def runOps (ops : List DispatcherOp) : List ChainMember :=
  ops.foldl applyOp []

/-- The surviving members of a sequence of operations: adds appended in
arrival order, removes filtering. -/
def naiveApply (l : List ChainMember) : DispatcherOp → List ChainMember
  | .add m => l ++ [m]
  | .remove i => l.filter fun x => x.id ≠ i

def survivingMembers (ops : List DispatcherOp) : List ChainMember :=
  ops.foldl naiveApply []

/-- Modelled from the spec: step 6 of the add algorithm (§4.4) walks the
rebuilt chain and stores each member's 0-based index through
`Program::set_position` (`models.rs` 1533-1541), which delegates to
`set_current_position` (`models.rs` 1044-1050, 1153-1159).  The result
pairs each member with the `current_position` written for it. -/
def rebuildPositions (chain : List ChainMember) : List (ChainMember × Nat) :=
  chain.enum.map fun p => (p.2, p.1)

/-! ## The sled tree behind `ProgramData` (`models.rs` 853-897)

`set_maps_used_by`, `get_maps_used_by` and `clear_maps_used_by` live in
`src/`; the sled primitives they use (`sled_insert`, `scan_prefix`) do
not, and are modelled from the spec (§4.1): a tree is a set of
byte-string keys kept in lexicographic byte order, `insert` replaces,
and `scan_prefix` iterates the keys with a given prefix in key order.
A tree is an association list sorted strictly by `lexLt`. -/

/-- Lexicographic order on byte strings, as sled orders keys. -/
def lexLt : List Nat → List Nat → Bool
  | [], [] => false
  | [], _ :: _ => true
  | _ :: _, [] => false
  | a :: as, b :: bs => if a < b then true else if b < a then false else lexLt as bs

abbrev SledTree := List (List Nat × List Nat)

/-- Well-formedness: entries strictly sorted by key. -/
def TreeWF (t : SledTree) : Prop :=
  t.Pairwise fun a b => lexLt a.1 b.1 = true

/-- Modelled from the spec: the store's `insert` on one tree (§4.1),
keeping the key-sorted representation and replacing an existing key. -/
def sled_insert : SledTree → List Nat → List Nat → SledTree
  | [], k, v => [(k, v)]
  | kv :: t, k, v =>
    if lexLt k kv.1 then (k, v) :: kv :: t
    else if lexLt kv.1 k then kv :: sled_insert t k v
    else (k, v) :: t

/-- Modelled from the spec: `scan_prefix` (§4.1) returns the entries
whose key starts with the prefix, in key order. -/
def sled_scan_prefixed (p : List Nat) (t : SledTree) : SledTree :=
  t.filter fun kv => p.isPrefixOf kv.1

/-- `u32::to_ne_bytes` on x86-64 (little endian). -/
def u32_to_ne_bytes (v : Nat) : List Nat :=
  [v % 256, v / 256 % 256, v / 65536 % 256, v / 16777216 % 256]

/-- Modelled from the spec: `bytes_to_u32` from the bpfman `utils`
module (not under `src/`): decode the fixed-endianness bytes written by
`to_ne_bytes` (§4.1). -/
def bytes_to_u32 (b : List Nat) : Nat :=
  b.getD 0 0 + 256 * b.getD 1 0 + 65536 * b.getD 2 0 + 16777216 * b.getD 3 0

/-- Decimal ASCII bytes of `n`, most significant digit first, as
produced by `format!` on a `usize` index; structured like the standard
digit loop with explicit fuel. -/
def decBytesCore : Nat → Nat → List Nat → List Nat
  | 0, _, acc => acc
  | fuel + 1, n, acc =>
    if n < 10 then (48 + n) :: acc
    else decBytesCore fuel (n / 10) ((48 + n % 10) :: acc)

def decBytes (n : Nat) : List Nat :=
  decBytesCore (n + 1) n []

/-- The key `format!` builds for index `i`
(`models.rs` 860: the maps-used-by prefix followed by the decimal
index).  The prefix constant is defined outside `src/`, so it is a
parameter throughout. -/
def mubKey (pfx : List Nat) (i : Nat) : List Nat :=
  pfx ++ decBytes i

/-- `ProgramData::clear_maps_used_by` (`models.rs` 891-897): remove
every key found by `scan_prefix` on the prefix. -/
def clear_maps_used_by (pfx : List Nat) (t : SledTree) : SledTree :=
  t.filter fun kv => !(pfx.isPrefixOf kv.1)

/-- `ProgramData::set_maps_used_by` (`models.rs` 853-864): clear, then
insert each id under the key `prefix ++ decimal index`. -/
def set_maps_used_by (pfx : List Nat) (ids : List Nat) (t : SledTree) : SledTree :=
  ids.enum.foldl (fun acc p => sled_insert acc (mubKey pfx p.1) (u32_to_ne_bytes p.2))
    (clear_maps_used_by pfx t)

/-- `ProgramData::get_maps_used_by` (`models.rs` 876-889): scan the
prefix and decode each value. -/
def get_maps_used_by (pfx : List Nat) (t : SledTree) : List Nat :=
  (sled_scan_prefixed pfx t).map fun kv => bytes_to_u32 kv.2

/-! # Theorems -/

/-- A bit of a fold of bitwise-ors of single-bit masks is set exactly
when some element contributes that bit. -/
theorem testBit_foldl_or {α : Type} (f : α → Nat) (l : List α) (acc i : Nat) :
    (l.foldl (fun m a => m ||| (1 <<< f a)) acc).testBit i =
      (acc.testBit i || l.any fun a => f a = i) := by
  induction l generalizing acc with
  | nil => simp
  | cons x xs ih =>
    simp only [List.foldl_cons, ih, Nat.testBit_or, List.any_cons]
    rw [Nat.shiftLeft_eq, one_mul, Nat.testBit_two_pow]
    cases acc.testBit i <;> simp [Bool.or_assoc, eq_comm]

/-- C2: `XdpProceedOn::mask` sets exactly bit `i` for each action with
discriminant `i ∈ {aborted=0, drop=1, pass=2, tx=3, redirect=4,
dispatcher_return=31}`, and `TcProceedOn::mask` sets exactly bit `i+1`
for each action with discriminant `i ∈ {unspec=-1, ok=0, ..., trap=8,
dispatcher_return=30}`; in particular
`xdp_mask({pass, dispatcher_return}) = (1<<2) | (1<<31)` and
`tc_mask({pipe, dispatcher_return}) = (1<<4) | (1<<31)`. -/
theorem proceed_on_mask_bits :
    (∀ (l : List XdpProceedOnEntry) (i : Nat),
      (XdpProceedOn.mask ⟨l⟩).testBit i = true ↔ ∃ a, a ∈ l ∧ a.toU32 = i)
    ∧ (∀ (l : List TcProceedOnEntry) (i : Nat),
      (TcProceedOn.mask ⟨l⟩).testBit i = true ↔ ∃ a, a ∈ l ∧ (a.toI32 + 1).toNat = i)
    ∧ XdpProceedOn.mask ⟨[.Pass, .DispatcherReturn]⟩ = (1 <<< 2) ||| (1 <<< 31)
    ∧ TcProceedOn.mask ⟨[.Pipe, .DispatcherReturn]⟩ = (1 <<< 4) ||| (1 <<< 31) := by
  refine ⟨?_, ?_, by decide, by decide⟩
  · intro l i
    unfold XdpProceedOn.mask
    rw [testBit_foldl_or]
    simp
  · intro l i
    unfold TcProceedOn.mask
    rw [testBit_foldl_or (fun a => (TcProceedOnEntry.toI32 a + 1).toNat)]
    simp

/-- C3: building a proceed-on set from an empty list of actions, via
`from_int32s` or by collecting an empty iterator, yields the defaults
`{pass, dispatcher_return}` (XDP) and `{pipe, dispatcher_return}` (TC). -/
theorem proceed_on_empty_defaults :
    XdpProceedOn.from_int32s [] = .ok ⟨[.Pass, .DispatcherReturn]⟩
    ∧ XdpProceedOn.from_iter [] = ⟨[.Pass, .DispatcherReturn]⟩
    ∧ TcProceedOn.from_int32s [] = .ok ⟨[.Pipe, .DispatcherReturn]⟩
    ∧ TcProceedOn.from_iter [] = ⟨[.Pipe, .DispatcherReturn]⟩ :=
  ⟨rfl, rfl, rfl, rfl⟩

/-- C9: `set_retprobe` on a kprobe or uprobe program persists
`(retprobe as i8) % 2`, the single byte 0 or 1, and `get_retprobe`
recovers exactly the original boolean. -/
theorem set_retprobe_roundtrip (b : Bool) :
    KprobeProgram.set_retprobe_stored b = [if b then 1 else 0]
    ∧ KprobeProgram.get_retprobe_of (some (KprobeProgram.set_retprobe_stored b)) = b
    ∧ UprobeProgram.set_retprobe_stored b = [if b then 1 else 0]
    ∧ UprobeProgram.get_retprobe_of (some (UprobeProgram.set_retprobe_stored b)) = b := by
  cases b <;> exact ⟨rfl, rfl, rfl, rfl⟩

/-- C4: for a program of the `Unsupported` variant, `matches` succeeds
exactly when the daemon-programs-only flag is clear, the metadata
selector is empty, and any requested program type equals the
kernel-reported program type (an unreadable kernel type matches no
requested type); with no requested type and no selector the program
matches. -/
theorem unsupported_matches_characterisation (kt : Option Nat)
    (md : List (String × String)) (f : ListFilter) :
    f.matches ⟨.Unsupported, kt, md⟩ = true ↔
      f.bpfman_programs_only = false ∧ f.metadata_selector = [] ∧
        ∀ t, f.program_type = some t → kt = some t := by
  obtain ⟨pt, sel, only⟩ := f
  simp only [ListFilter.matches]
  cases only with
  | true => simp
  | false =>
    cases pt with
    | none => simp
    | some t =>
      cases kt with
      | none => simp
      | some k =>
        by_cases hk : k = t <;> simp [hk]

/-- C5: for daemon-managed programs, `matches` compares the requested
type against the daemon-recorded kind (`Xdp` for XDP, `Tc` for TC),
never against the kernel-reported type; and an `Unsupported`-variant
entry whose kernel type is `Ext` (the type the kernel reports for
daemon-loaded XDP/TC programs) is excluded by every requested type
other than `Ext` itself. -/
theorem daemon_kind_filtering :
    (∀ (f : ListFilter) (kt kt' : Option Nat) (md : List (String × String)),
        f.matches ⟨.Xdp, kt, md⟩ = f.matches ⟨.Xdp, kt', md⟩
      ∧ f.matches ⟨.Tc, kt, md⟩ = f.matches ⟨.Tc, kt', md⟩)
    ∧ (∀ (t : Nat) (kt : Option Nat) (md : List (String × String)) (b : Bool),
        ((ListFilter.mk (some t) [] b).matches ⟨.Xdp, kt, md⟩ = true ↔
          t = ProgramType.toU32 .Xdp)
      ∧ ((ListFilter.mk (some t) [] b).matches ⟨.Tc, kt, md⟩ = true ↔
          t = ProgramType.toU32 .Tc))
    ∧ (∀ (t : Nat) (md : List (String × String)),
        (ListFilter.mk (some t) [] false).matches
            ⟨.Unsupported, some (ProgramType.toU32 .Ext), md⟩ = true ↔
          t = ProgramType.toU32 .Ext) := by
  refine ⟨?_, ?_, ?_⟩
  · intro f kt kt' md
    obtain ⟨pt, sel, only⟩ := f
    exact ⟨rfl, rfl⟩
  · intro t kt md b
    constructor <;>
      simp [ListFilter.matches, ProgramModel.kind_u32, ProgramType.toU32, eq_comm]
  · intro t md
    by_cases ht : ProgramType.toU32 .Ext = t <;>
      simp [ListFilter.matches, ProgramType.toU32, ht] <;> omega

/-- C6: resolving an image whose symbol list does not contain the
declared program name makes `set_program_bytes` fail with
`ProgramNotFoundInBytecode` carrying the image url, the expected name
and the found symbols, and leaves the program state (in particular the
`PROGRAM_BYTES` key) untouched. -/
theorem image_name_mismatch
    (openFile : OpenOptions → String → Except String (List Nat))
    (imageGet : String → ImagePullPolicy → Option String → Option String →
      Except String (List Nat × List String))
    (n url : String) (policy : ImagePullPolicy) (user pw : Option String)
    (pb : Option (List Nat)) (v : List Nat) (s : List String)
    (hres : imageGet url policy user pw = .ok (v, s)) (hn : n ∉ s) :
    PDState.set_program_bytes openFile imageGet ⟨n, .Image ⟨url, policy, user, pw⟩, pb⟩ =
      (.error (.ProgramNotFoundInBytecode url n s),
        ⟨n, .Image ⟨url, policy, user, pw⟩, pb⟩) := by
  simp [PDState.set_program_bytes, Location.get_program_bytes, hres, hn]

/-- Witness for `image_name_mismatch`: the spec's scenario of an image
with symbols `classifier` and declared name `unknown_fn`. -/
theorem image_name_mismatch_witness :
    PDState.set_program_bytes (fun _ _ => .ok [])
      (fun _ _ _ _ => .ok ([0, 1], ["classifier"]))
      ⟨"unknown_fn", .Image ⟨"quay.io/img", .Always, none, none⟩, none⟩ =
      (.error (.ProgramNotFoundInBytecode "quay.io/img" "unknown_fn" ["classifier"]),
        ⟨"unknown_fn", .Image ⟨"quay.io/img", .Always, none, none⟩, none⟩) :=
  image_name_mismatch _ _ "unknown_fn" "quay.io/img" .Always none none none
    [0, 1] ["classifier"] rfl (by decide)

/-- C7: resolving a file location returns the file bytes with an empty
symbol list; `set_program_bytes` on a file location can never fail with
`ProgramNotFoundInBytecode`; and the read goes through open options
with the `O_NOCTTY` custom flag set. -/
theorem file_location_bytes
    (openFile : OpenOptions → String → Except String (List Nat))
    (imageGet : String → ImagePullPolicy → Option String → Option String →
      Except String (List Nat × List String))
    (n path : String) (pb : Option (List Nat)) :
    (∀ v, openFile readOptions path = .ok v →
        Location.get_program_bytes openFile imageGet (.File path) = .ok (v, []))
    ∧ (∀ u en pn, (PDState.set_program_bytes openFile imageGet ⟨n, .File path, pb⟩).1 ≠
        .error (.ProgramNotFoundInBytecode u en pn))
    ∧ fsRead openFile path = openFile { custom_flags := O_NOCTTY, read_flag := true } path := by
  refine ⟨?_, ?_, rfl⟩
  · intro v h
    simp [Location.get_program_bytes, fsRead, h]
  · intro u en pn
    simp only [PDState.set_program_bytes, Location.get_program_bytes]
    rcases h : fsRead openFile path with e | bytes <;> simp

/-- Witness for `file_location_bytes`: a concrete filesystem returning
three bytes for the path. -/
theorem file_location_bytes_witness :
    Location.get_program_bytes (fun _ _ => .ok [7, 8, 9]) (fun _ _ _ _ => .ok ([], []))
      (.File "prog.o") = .ok ([7, 8, 9], [])
    ∧ (PDState.set_program_bytes (fun _ _ => .ok [7, 8, 9]) (fun _ _ _ _ => .ok ([], []))
        ⟨"main", .File "prog.o", none⟩).1 ≠
      .error (.ProgramNotFoundInBytecode "u" "main" []) :=
  ⟨(file_location_bytes _ _ "main" "prog.o" none).1 [7, 8, 9] rfl,
    (file_location_bytes _ _ "main" "prog.o" none).2.1 "u" "main" []⟩

/-- Invariant of the dispatcher rebuild loop: starting from a sorted
chain that is a permutation of the naive member list, every sequence of
operations preserves sortedness and keeps the chain a permutation of
the naive member list. -/
theorem runOps_sorted_perm (ops : List DispatcherOp) :
    ∀ chain base, chain.Sorted memberLe → chain.Perm base →
      (ops.foldl applyOp chain).Sorted memberLe
      ∧ (ops.foldl applyOp chain).Perm (ops.foldl naiveApply base) := by
  induction ops with
  | nil => exact fun c b hs hp => ⟨hs, hp⟩
  | cons op ops ih =>
    intro c b hs hp
    cases op with
    | add m =>
      refine ih _ _ (List.sorted_insertionSort memberLe _) ?_
      exact (List.perm_insertionSort memberLe _).trans
        ((hp.cons m).trans (List.perm_append_singleton m b).symm)
    | remove i =>
      exact ih _ _ (List.Pairwise.filter _ hs) (hp.filter _)

/-- C1: after any sequence of add/remove operations with arbitrary
priorities, the chain equals the surviving members sorted by
`(priority ascending, id ascending)`, and the `current_position`
written for each member during the rebuild is its 0-based index in the
chain. -/
theorem dispatcher_chain_canonical (ops : List DispatcherOp) :
    runOps ops = List.insertionSort memberLe (survivingMembers ops)
    ∧ ∀ m pos, (m, pos) ∈ rebuildPositions (runOps ops) →
        (runOps ops)[pos]? = some m := by
  obtain ⟨hs, hp⟩ :=
    runOps_sorted_perm ops [] [] List.sorted_nil (List.Perm.refl [])
  constructor
  · exact List.eq_of_perm_of_sorted
      (hp.trans (List.perm_insertionSort memberLe _).symm) hs
      (List.sorted_insertionSort memberLe _)
  · intro m pos hmem
    unfold rebuildPositions at hmem
    simp only [List.mem_map] at hmem
    obtain ⟨⟨i, a⟩, hin, heq⟩ := hmem
    obtain ⟨rfl, rfl⟩ : a = m ∧ i = pos := by
      simpa [Prod.ext_iff] using heq
    exact List.mk_mem_enum_iff_getElem?.mp hin

/-- Witness for `dispatcher_chain_canonical`: the spec's priority-tie
scenario, adding id 5 then id 9 at equal priority, then removing and
re-adding a third member. -/
theorem dispatcher_chain_canonical_witness :
    runOps [.add ⟨5, 10⟩, .add ⟨9, 10⟩, .add ⟨2, 1⟩, .remove 2] =
      List.insertionSort memberLe
        (survivingMembers [.add ⟨5, 10⟩, .add ⟨9, 10⟩, .add ⟨2, 1⟩, .remove 2])
    ∧ (runOps [.add ⟨5, 10⟩, .add ⟨9, 10⟩, .add ⟨2, 1⟩, .remove 2])[1]? =
        some ⟨9, 10⟩ :=
  ⟨(dispatcher_chain_canonical _).1,
    (dispatcher_chain_canonical _).2 ⟨9, 10⟩ 1 (by decide)⟩

/-! Round-trip helpers for the enum encodings (claim C8).  Each
`try_from` chain of conditionals is definitionally a lookup along a
key/value table, which the next lemmas characterise once and for all. -/

/-- Sequential lookup along a table of key/value pairs; the `try_from`
conversions are definitionally of this shape. -/
def chainLookup {κ α : Type} [DecidableEq κ] (table : List (κ × α))
    (err : κ → ParseError) (k : κ) : Except ParseError α :=
  match table with
  | [] => .error (err k)
  | kv :: rest => if k = kv.1 then .ok kv.2 else chainLookup rest err k

theorem chainLookup_ok_iff {κ α : Type} [DecidableEq κ] [DecidableEq α]
    (table : List (κ × α)) (hnd : (table.map Prod.fst).Nodup)
    (err : κ → ParseError) (k : κ) (v : α) :
    chainLookup table err k = .ok v ↔ (k, v) ∈ table := by
  induction table with
  | nil => simp [chainLookup]
  | cons kv rest ih =>
    simp only [List.map_cons, List.nodup_cons] at hnd
    obtain ⟨hk, hnd⟩ := hnd
    simp only [chainLookup, List.mem_cons]
    by_cases h : k = kv.1
    · subst h
      simp only [if_pos rfl]
      constructor
      · intro hv
        cases hv
        exact Or.inl rfl
      · rintro (h | h)
        · obtain ⟨k1, v1⟩ := kv
          cases h
          rfl
        · exact absurd (List.mem_map_of_mem Prod.fst h) hk
    · rw [if_neg h, ih hnd]
      constructor
      · exact Or.inr
      · rintro (hh | hh)
        · exact absurd (congrArg Prod.fst hh) h
        · exact hh

theorem chainLookup_not_mem {κ α : Type} [DecidableEq κ]
    (table : List (κ × α)) (err : κ → ParseError) (k : κ)
    (hk : k ∉ table.map Prod.fst) :
    chainLookup table err k = .error (err k) := by
  induction table with
  | nil => rfl
  | cons kv rest ih =>
    simp only [List.map_cons, List.mem_cons] at hk
    push_neg at hk
    simp only [chainLookup, if_neg hk.1]
    exact ih hk.2

/-- The encoding table of an enumeration: every value paired with its
encoding, in declaration order. -/
theorem mem_encTable_iff {κ α : Type} [DecidableEq κ] [DecidableEq α]
    (all : List α) (enc : α → κ) (hall : ∀ v, v ∈ all) (k : κ) (v : α) :
    (k, v) ∈ all.map (fun u => (enc u, u)) ↔ enc v = k := by
  constructor
  · intro h
    obtain ⟨u, _, heq⟩ := List.mem_map.mp h
    cases heq
    rfl
  · intro h
    subst h
    exact List.mem_map_of_mem _ (hall v)

/-- Every `ProgramType`, in the order of the source `match` arms. -/
def allProgramTypes : List ProgramType :=
  [.Unspec, .SocketFilter, .Probe, .Tc, .SchedAct, .Tracepoint, .Xdp, .PerfEvent,
   .CgroupSkb, .CgroupSock, .LwtIn, .LwtOut, .LwtXmit, .SockOps, .SkSkb,
   .CgroupDevice, .SkMsg, .RawTracepoint, .CgroupSockAddr, .LwtSeg6Local,
   .LircMode2, .SkReuseport, .FlowDissector, .CgroupSysctl,
   .RawTracepointWritable, .CgroupSockopt, .Tracing, .StructOps, .Ext, .Lsm,
   .SkLookup, .Syscall]

theorem mem_allProgramTypes (v : ProgramType) : v ∈ allProgramTypes := by
  cases v <;> decide

theorem pt_u32_bridge (n : Nat) :
    ProgramType.try_from_u32 n =
      chainLookup (allProgramTypes.map fun u => (u.toU32, u))
        (fun k => .InvalidProgramType (toString k)) n := rfl

theorem pt_string_bridge (s : String) :
    ProgramType.try_from_string s =
      chainLookup (allProgramTypes.map fun u => (u.display, u))
        (fun k => .InvalidProgramType k) s := rfl

def allDirections : List Direction := [.Ingress, .Egress]

theorem mem_allDirections (v : Direction) : v ∈ allDirections := by
  cases v <;> decide

theorem dir_u32_bridge (n : Nat) :
    Direction.try_from_u32 n =
      chainLookup (allDirections.map fun u => (u.toU32, u))
        (fun k => .InvalidDirection (toString k)) n := rfl

theorem dir_string_bridge (s : String) :
    Direction.try_from_string s =
      chainLookup (allDirections.map fun u => (u.display, u))
        (fun k => .InvalidDirection k) s := rfl

def allImagePullPolicies : List ImagePullPolicy := [.Always, .IfNotPresent, .Never]

theorem mem_allImagePullPolicies (v : ImagePullPolicy) : v ∈ allImagePullPolicies := by
  cases v <;> decide

theorem ipp_i32_bridge (n : Int) :
    ImagePullPolicy.try_from_i32 n =
      chainLookup (allImagePullPolicies.map fun u => (u.toI32, u))
        (fun k => .InvalidBytecodeImagePullPolicy (toString k)) n := rfl

theorem ipp_string_bridge (s : String) :
    ImagePullPolicy.try_from_string s =
      chainLookup (allImagePullPolicies.map fun u => (u.display, u))
        (fun k => .InvalidBytecodeImagePullPolicy k) s := rfl

def allXdpEntries : List XdpProceedOnEntry :=
  [.Aborted, .Drop, .Pass, .Tx, .Redirect, .DispatcherReturn]

theorem mem_allXdpEntries (v : XdpProceedOnEntry) : v ∈ allXdpEntries := by
  cases v <;> decide

/-- The `i32` encoding of an `XdpProceedOnEntry` (its discriminant, as
cast by `as i32`): the non-negative `toU32` value. -/
def XdpProceedOnEntry.toI32 (v : XdpProceedOnEntry) : Int := v.toU32

theorem xdp_i32_bridge (n : Int) :
    XdpProceedOnEntry.try_from_i32 n =
      chainLookup (allXdpEntries.map fun u => (u.toI32, u))
        (fun k => .InvalidProceedOn (toString k)) n := rfl

theorem xdp_string_bridge (s : String) :
    XdpProceedOnEntry.try_from_string s =
      chainLookup (allXdpEntries.map fun u => (u.display, u))
        (fun k => .InvalidProceedOn k) s := rfl

def allTcEntries : List TcProceedOnEntry :=
  [.Unspec, .Ok, .Reclassify, .Shot, .Pipe, .Stolen, .Queued, .Repeat,
   .Redirect, .Trap, .DispatcherReturn]

theorem mem_allTcEntries (v : TcProceedOnEntry) : v ∈ allTcEntries := by
  cases v <;> decide

theorem tc_i32_bridge (n : Int) :
    TcProceedOnEntry.try_from_i32 n =
      chainLookup (allTcEntries.map fun u => (u.toI32, u))
        (fun k => .InvalidProceedOn (toString k)) n := rfl

theorem tc_string_bridge (s : String) :
    TcProceedOnEntry.try_from_string s =
      chainLookup (allTcEntries.map fun u => (u.display, u))
        (fun k => .InvalidProceedOn k) s := rfl

/-- Keys of an encoding table are exactly the encodings. -/
theorem encTable_keys_not_mem {κ α : Type} [DecidableEq κ] (all : List α)
    (enc : α → κ) (k : κ) (h : ∀ v, enc v ≠ k) :
    k ∉ (all.map fun u => (enc u, u)).map Prod.fst := by
  intro hmem
  rw [List.map_map] at hmem
  obtain ⟨u, _, heq⟩ := List.mem_map.mp hmem
  exact h u heq

/-- Characterisation of a `try_from` conversion built from an encoding
table: success states are exactly the encodings, and anything else
fails with the given parse error. -/
theorem encTable_spec {κ α : Type} [DecidableEq κ] [DecidableEq α]
    (all : List α) (enc : α → κ) (hall : ∀ v, v ∈ all)
    (hnd : ((all.map fun u => (enc u, u)).map Prod.fst).Nodup)
    (err : κ → ParseError) (k : κ) :
    (∀ v, chainLookup (all.map fun u => (enc u, u)) err k = .ok v ↔ enc v = k)
    ∧ ((∀ v, enc v ≠ k) →
        chainLookup (all.map fun u => (enc u, u)) err k = .error (err k)) := by
  constructor
  · intro v
    rw [chainLookup_ok_iff _ hnd err k v]
    exact mem_encTable_iff all enc hall k v
  · intro h
    exact chainLookup_not_mem _ err k (encTable_keys_not_mem all enc k h)

/-- C8: each of `ProgramType`, `Direction`, `ImagePullPolicy`,
`XdpProceedOnEntry` and `TcProceedOnEntry` round-trips through its
string and integer encodings — parsing succeeds exactly on encoded
values and yields the encoded value — and parsing anything outside the
encoded range fails with the corresponding parse error. -/
theorem enum_encoding_roundtrip :
    (∀ n v, ProgramType.try_from_u32 n = .ok v ↔ ProgramType.toU32 v = n)
    ∧ (∀ n, (∀ v : ProgramType, v.toU32 ≠ n) →
        ProgramType.try_from_u32 n = .error (.InvalidProgramType (toString n)))
    ∧ (∀ s v, ProgramType.try_from_string s = .ok v ↔ ProgramType.display v = s)
    ∧ (∀ s, (∀ v : ProgramType, v.display ≠ s) →
        ProgramType.try_from_string s = .error (.InvalidProgramType s))
    ∧ (∀ n v, Direction.try_from_u32 n = .ok v ↔ Direction.toU32 v = n)
    ∧ (∀ n, (∀ v : Direction, v.toU32 ≠ n) →
        Direction.try_from_u32 n = .error (.InvalidDirection (toString n)))
    ∧ (∀ s v, Direction.try_from_string s = .ok v ↔ Direction.display v = s)
    ∧ (∀ s, (∀ v : Direction, v.display ≠ s) →
        Direction.try_from_string s = .error (.InvalidDirection s))
    ∧ (∀ n v, ImagePullPolicy.try_from_i32 n = .ok v ↔ ImagePullPolicy.toI32 v = n)
    ∧ (∀ n, (∀ v : ImagePullPolicy, v.toI32 ≠ n) →
        ImagePullPolicy.try_from_i32 n = .error (.InvalidBytecodeImagePullPolicy (toString n)))
    ∧ (∀ s v, ImagePullPolicy.try_from_string s = .ok v ↔ ImagePullPolicy.display v = s)
    ∧ (∀ s, (∀ v : ImagePullPolicy, v.display ≠ s) →
        ImagePullPolicy.try_from_string s = .error (.InvalidBytecodeImagePullPolicy s))
    ∧ (∀ n v, XdpProceedOnEntry.try_from_i32 n = .ok v ↔ XdpProceedOnEntry.toI32 v = n)
    ∧ (∀ n, (∀ v : XdpProceedOnEntry, v.toI32 ≠ n) →
        XdpProceedOnEntry.try_from_i32 n = .error (.InvalidProceedOn (toString n)))
    ∧ (∀ s v, XdpProceedOnEntry.try_from_string s = .ok v ↔ XdpProceedOnEntry.display v = s)
    ∧ (∀ s, (∀ v : XdpProceedOnEntry, v.display ≠ s) →
        XdpProceedOnEntry.try_from_string s = .error (.InvalidProceedOn s))
    ∧ (∀ n v, TcProceedOnEntry.try_from_i32 n = .ok v ↔ TcProceedOnEntry.toI32 v = n)
    ∧ (∀ n, (∀ v : TcProceedOnEntry, v.toI32 ≠ n) →
        TcProceedOnEntry.try_from_i32 n = .error (.InvalidProceedOn (toString n)))
    ∧ (∀ s v, TcProceedOnEntry.try_from_string s = .ok v ↔ TcProceedOnEntry.display v = s)
    ∧ (∀ s, (∀ v : TcProceedOnEntry, v.display ≠ s) →
        TcProceedOnEntry.try_from_string s = .error (.InvalidProceedOn s)) := by
  refine ⟨?_, ?_, ?_, ?_, ?_, ?_, ?_, ?_, ?_, ?_, ?_, ?_, ?_, ?_, ?_, ?_, ?_, ?_, ?_, ?_⟩
  · intro n v
    rw [pt_u32_bridge]
    exact (encTable_spec allProgramTypes ProgramType.toU32 mem_allProgramTypes
      (by decide) _ n).1 v
  · intro n h
    rw [pt_u32_bridge]
    exact (encTable_spec allProgramTypes ProgramType.toU32 mem_allProgramTypes
      (by decide) _ n).2 h
  · intro s v
    rw [pt_string_bridge]
    exact (encTable_spec allProgramTypes ProgramType.display mem_allProgramTypes
      (by decide) _ s).1 v
  · intro s h
    rw [pt_string_bridge]
    exact (encTable_spec allProgramTypes ProgramType.display mem_allProgramTypes
      (by decide) _ s).2 h
  · intro n v
    rw [dir_u32_bridge]
    exact (encTable_spec allDirections Direction.toU32 mem_allDirections
      (by decide) _ n).1 v
  · intro n h
    rw [dir_u32_bridge]
    exact (encTable_spec allDirections Direction.toU32 mem_allDirections
      (by decide) _ n).2 h
  · intro s v
    rw [dir_string_bridge]
    exact (encTable_spec allDirections Direction.display mem_allDirections
      (by decide) _ s).1 v
  · intro s h
    rw [dir_string_bridge]
    exact (encTable_spec allDirections Direction.display mem_allDirections
      (by decide) _ s).2 h
  · intro n v
    rw [ipp_i32_bridge]
    exact (encTable_spec allImagePullPolicies ImagePullPolicy.toI32 mem_allImagePullPolicies
      (by decide) _ n).1 v
  · intro n h
    rw [ipp_i32_bridge]
    exact (encTable_spec allImagePullPolicies ImagePullPolicy.toI32 mem_allImagePullPolicies
      (by decide) _ n).2 h
  · intro s v
    rw [ipp_string_bridge]
    exact (encTable_spec allImagePullPolicies ImagePullPolicy.display mem_allImagePullPolicies
      (by decide) _ s).1 v
  · intro s h
    rw [ipp_string_bridge]
    exact (encTable_spec allImagePullPolicies ImagePullPolicy.display mem_allImagePullPolicies
      (by decide) _ s).2 h
  · intro n v
    rw [xdp_i32_bridge]
    exact (encTable_spec allXdpEntries XdpProceedOnEntry.toI32 mem_allXdpEntries
      (by decide) _ n).1 v
  · intro n h
    rw [xdp_i32_bridge]
    exact (encTable_spec allXdpEntries XdpProceedOnEntry.toI32 mem_allXdpEntries
      (by decide) _ n).2 h
  · intro s v
    rw [xdp_string_bridge]
    exact (encTable_spec allXdpEntries XdpProceedOnEntry.display mem_allXdpEntries
      (by decide) _ s).1 v
  · intro s h
    rw [xdp_string_bridge]
    exact (encTable_spec allXdpEntries XdpProceedOnEntry.display mem_allXdpEntries
      (by decide) _ s).2 h
  · intro n v
    rw [tc_i32_bridge]
    exact (encTable_spec allTcEntries TcProceedOnEntry.toI32 mem_allTcEntries
      (by decide) _ n).1 v
  · intro n h
    rw [tc_i32_bridge]
    exact (encTable_spec allTcEntries TcProceedOnEntry.toI32 mem_allTcEntries
      (by decide) _ n).2 h
  · intro s v
    rw [tc_string_bridge]
    exact (encTable_spec allTcEntries TcProceedOnEntry.display mem_allTcEntries
      (by decide) _ s).1 v
  · intro s h
    rw [tc_string_bridge]
    exact (encTable_spec allTcEntries TcProceedOnEntry.display mem_allTcEntries
      (by decide) _ s).2 h

/-- Witness for `enum_encoding_roundtrip`: concrete round trips and a
concrete out-of-range failure. -/
theorem enum_encoding_roundtrip_witness :
    ProgramType.try_from_string "xdp" = .ok .Xdp
    ∧ ProgramType.try_from_u32 28 = .ok .Ext
    ∧ Direction.try_from_u32 7 = .error (.InvalidDirection (toString 7))
    ∧ TcProceedOnEntry.try_from_i32 (-1) = .ok .Unspec := by
  obtain ⟨h1, _, h3, _, h5, h6, _⟩ := enum_encoding_roundtrip
  exact ⟨(h3 "xdp" .Xdp).mpr rfl, (h1 28 .Ext).mpr rfl,
    h6 7 (by intro v; cases v <;> decide), by
      obtain ⟨_, _, _, _, _, _, _, _, _, _, _, _, _, _, _, _, h17, _⟩ :=
        enum_encoding_roundtrip
      exact (h17 (-1) .Unspec).mpr rfl⟩

/-! Order lemmas for the sled key order, and the characterisation of
`sled_insert` on well-formed trees (claim C10). -/

theorem lexLt_irrefl (a : List Nat) : lexLt a a = false := by
  induction a with
  | nil => rfl
  | cons x xs ih => simp [lexLt, ih]

theorem lexLt_trans {a : List Nat} : ∀ {b c : List Nat},
    lexLt a b = true → lexLt b c = true → lexLt a c = true := by
  induction a with
  | nil =>
    intro b c h1 h2
    cases b with
    | nil => simp [lexLt] at h1
    | cons y ys =>
      cases c with
      | nil => simp [lexLt] at h2
      | cons z zs => rfl
  | cons x xs ih =>
    intro b c h1 h2
    cases b with
    | nil => simp [lexLt] at h1
    | cons y ys =>
      cases c with
      | nil => simp [lexLt] at h2
      | cons z zs =>
        simp only [lexLt] at h1 h2 ⊢
        split_ifs at h1 h2 ⊢ <;>
          first
            | rfl
            | omega
            | exact ih h1 h2

theorem lexLt_asymm {a b : List Nat} (h : lexLt a b = true) : lexLt b a = false := by
  by_contra hc
  have hba : lexLt b a = true := by
    cases hh : lexLt b a
    · exact absurd hh hc
    · rfl
  have := lexLt_trans h hba
  rw [lexLt_irrefl] at this
  cases this

theorem lexLt_connex {a : List Nat} : ∀ {b : List Nat},
    lexLt a b = false → lexLt b a = false → a = b := by
  induction a with
  | nil =>
    intro b h1 _
    cases b with
    | nil => rfl
    | cons y ys => simp [lexLt] at h1
  | cons x xs ih =>
    intro b h1 h2
    cases b with
    | nil => simp [lexLt] at h2
    | cons y ys =>
      simp only [lexLt] at h1 h2
      by_cases hxy : x < y
      · simp [hxy] at h1
      · by_cases hyx : y < x
        · simp [hyx] at h2
        · rw [if_neg hxy, if_neg hyx] at h1
          rw [if_neg hyx, if_neg hxy] at h2
          have hx : x = y := by omega
          rw [hx, ih h1 h2]

/-- The strict order on tree entries underlying `TreeWF`. -/
def keyLt (a b : List Nat × List Nat) : Prop := lexLt a.1 b.1 = true

instance : DecidableRel keyLt := fun a b => by
  unfold keyLt
  infer_instance

instance : IsAntisymm (List Nat × List Nat) keyLt := by
  constructor
  intro a b h1 h2
  unfold keyLt at h1 h2
  rw [lexLt_asymm h1] at h2
  cases h2

theorem treeWF_iff (t : SledTree) : TreeWF t ↔ t.Pairwise keyLt := Iff.rfl

theorem TreeWF.keys_bound {kv : List Nat × List Nat} {rest : SledTree}
    (h : TreeWF (kv :: rest)) :
    (∀ x ∈ rest, keyLt kv x) ∧ TreeWF rest := by
  rw [TreeWF, List.pairwise_cons] at h
  exact h

theorem TreeWF.nodup {t : SledTree} (h : TreeWF t) : t.Nodup := by
  refine List.Pairwise.imp ?_ h
  intro a b hab heq
  subst heq
  rw [lexLt_irrefl] at hab
  cases hab

theorem mem_sled_insert_sub {k v : List Nat} :
    ∀ {t : SledTree}, ∀ x ∈ sled_insert t k v, x = (k, v) ∨ x ∈ t := by
  intro t
  induction t with
  | nil => simp [sled_insert]
  | cons kv rest ih =>
    intro x hx
    simp only [sled_insert] at hx
    split_ifs at hx with h1 h2
    · rcases List.mem_cons.mp hx with h | h
      · exact Or.inl h
      · exact Or.inr h
    · rcases List.mem_cons.mp hx with h | h
      · exact Or.inr (List.mem_cons.mpr (Or.inl h))
      · rcases ih x h with h' | h'
        · exact Or.inl h'
        · exact Or.inr (List.mem_cons.mpr (Or.inr h'))
    · rcases List.mem_cons.mp hx with h | h
      · exact Or.inl h
      · exact Or.inr (List.mem_cons.mpr (Or.inr h))

theorem TreeWF.sled_insert {t : SledTree} (h : TreeWF t) (k v : List Nat) :
    TreeWF (sled_insert t k v) := by
  induction t with
  | nil => simp [Bpfman.sled_insert, TreeWF]
  | cons kv rest ih =>
    obtain ⟨hb, ht⟩ := h.keys_bound
    simp only [Bpfman.sled_insert]
    split_ifs with h1 h2
    · rw [TreeWF, List.pairwise_cons]
      constructor
      · intro x hx
        rcases List.mem_cons.mp hx with rfl | hx
        · exact h1
        · exact lexLt_trans h1 (hb x hx)
      · rw [List.pairwise_cons]
        exact ⟨hb, ht⟩
    · rw [TreeWF, List.pairwise_cons]
      constructor
      · intro x hx
        rcases mem_sled_insert_sub x hx with rfl | hx
        · exact h2
        · exact hb x hx
      · exact ih ht
    · have hk : k = kv.1 := by
        apply lexLt_connex
        · cases hh : lexLt k kv.1
          · rfl
          · exact absurd hh h1
        · cases hh : lexLt kv.1 k
          · rfl
          · exact absurd hh h2
      rw [TreeWF, List.pairwise_cons]
      refine ⟨?_, ht⟩
      intro x hx
      show lexLt k x.1 = true
      rw [hk]
      exact hb x hx

theorem mem_sled_insert_iff {t : SledTree} (h : TreeWF t) (k v : List Nat)
    (x : List Nat × List Nat) :
    x ∈ sled_insert t k v ↔ x = (k, v) ∨ (x ∈ t ∧ x.1 ≠ k) := by
  induction t with
  | nil => simp [Bpfman.sled_insert]
  | cons kv rest ih =>
    obtain ⟨hb, ht⟩ := h.keys_bound
    simp only [Bpfman.sled_insert]
    split_ifs with h1 h2
    · -- new entry goes first; every existing key is strictly above k
      have hne : ∀ y ∈ kv :: rest, y.1 ≠ k := by
        intro y hy heq
        rcases List.mem_cons.mp hy with rfl | hy
        · rw [heq] at h1
          rw [lexLt_irrefl] at h1
          cases h1
        · have := lexLt_trans h1 (hb y hy)
          rw [heq, lexLt_irrefl] at this
          cases this
      constructor
      · intro hx
        rcases List.mem_cons.mp hx with rfl | hx
        · exact Or.inl rfl
        · exact Or.inr ⟨hx, hne x hx⟩
      · rintro (rfl | ⟨hx, _⟩)
        · exact List.mem_cons_self _ _
        · exact List.mem_cons.mpr (Or.inr hx)
    · constructor
      · intro hx
        rcases List.mem_cons.mp hx with rfl | hx
        · refine Or.inr ⟨List.mem_cons_self _ _, ?_⟩
          intro heq
          rw [heq] at h2
          rw [lexLt_irrefl] at h2
          cases h2
        · rcases (ih ht).mp hx with h' | ⟨hx', hk'⟩
          · exact Or.inl h'
          · exact Or.inr ⟨List.mem_cons.mpr (Or.inr hx'), hk'⟩
      · rintro (rfl | ⟨hx, hk'⟩)
        · exact List.mem_cons.mpr (Or.inr ((ih ht).mpr (Or.inl rfl)))
        · rcases List.mem_cons.mp hx with rfl | hx
          · exact List.mem_cons_self _ _
          · exact List.mem_cons.mpr (Or.inr ((ih ht).mpr (Or.inr ⟨hx, hk'⟩)))
    · -- k equals the head key: replacement
      have hk : k = kv.1 := by
        apply lexLt_connex
        · cases hh : lexLt k kv.1
          · rfl
          · exact absurd hh h1
        · cases hh : lexLt kv.1 k
          · rfl
          · exact absurd hh h2
      constructor
      · intro hx
        rcases List.mem_cons.mp hx with rfl | hx
        · exact Or.inl rfl
        · refine Or.inr ⟨List.mem_cons.mpr (Or.inr hx), ?_⟩
          intro heq
          have := hb x hx
          unfold keyLt at this
          rw [heq, hk, lexLt_irrefl] at this
          cases this
      · rintro (rfl | ⟨hx, hk'⟩)
        · exact List.mem_cons_self _ _
        · rcases List.mem_cons.mp hx with rfl | hx
          · exact absurd (hk ▸ rfl) hk'
          · exact List.mem_cons.mpr (Or.inr hx)

/-- Folding `sled_insert` over a list of key/value pairs, the shape of
`set_maps_used_by` after clearing. -/
def insertPairs (t : SledTree) (ps : List (List Nat × List Nat)) : SledTree :=
  ps.foldl (fun acc p => sled_insert acc p.1 p.2) t

theorem TreeWF.insertPairs {t : SledTree} (h : TreeWF t)
    (ps : List (List Nat × List Nat)) : TreeWF (Bpfman.insertPairs t ps) := by
  induction ps generalizing t with
  | nil => exact h
  | cons p ps ih => exact ih (h.sled_insert p.1 p.2)

theorem mem_insertPairs_iff {ps : List (List Nat × List Nat)} :
    ∀ {t : SledTree}, TreeWF t → (ps.map Prod.fst).Nodup →
      ∀ x, (x ∈ insertPairs t ps ↔ x ∈ ps ∨ (x ∈ t ∧ x.1 ∉ ps.map Prod.fst)) := by
  induction ps with
  | nil =>
    intro t _ _ x
    simp [insertPairs]
  | cons p ps ih =>
    intro t ht hnd x
    rw [List.map_cons, List.nodup_cons] at hnd
    obtain ⟨hp, hnd⟩ := hnd
    have hstep : insertPairs t (p :: ps) = insertPairs (sled_insert t p.1 p.2) ps := rfl
    rw [hstep, ih (ht.sled_insert p.1 p.2) hnd x, mem_sled_insert_iff ht p.1 p.2 x]
    constructor
    · rintro (hx | ⟨rfl | ⟨hxt, hxk⟩, hnk⟩)
      · exact Or.inl (List.mem_cons.mpr (Or.inr hx))
      · exact Or.inl (List.mem_cons.mpr (Or.inl rfl))
      · refine Or.inr ⟨hxt, ?_⟩
        rw [List.map_cons, List.mem_cons]
        push_neg
        exact ⟨hxk, hnk⟩
    · rintro (hx | ⟨hxt, hnk⟩)
      · rcases List.mem_cons.mp hx with rfl | hx
        · exact Or.inr ⟨Or.inl rfl, hp⟩
        · exact Or.inl hx
      · rw [List.map_cons, List.mem_cons] at hnk
        push_neg at hnk
        exact Or.inr ⟨Or.inr ⟨hxt, hnk.1⟩, hnk.2⟩

/-! Decimal keys: injectivity of the index encoding. -/

theorem decBytesCore_eq (n : Nat) : ∀ f acc, n < f →
    decBytesCore f n acc = decBytes n ++ acc := by
  induction n using Nat.strong_induction_on with
  | _ n ih =>
    intro f acc h
    cases f with
    | zero => omega
    | succ f =>
      by_cases h10 : n < 10
      · simp [decBytesCore, decBytes, h10]
      · push_neg at h10
        have hdiv : n / 10 < n := Nat.div_lt_self (by omega) (by omega)
        rw [decBytesCore, if_neg (by omega),
          ih (n / 10) hdiv f ((48 + n % 10) :: acc) (by omega)]
        conv_rhs => rw [decBytes, decBytesCore, if_neg (by omega),
          ih (n / 10) hdiv n [48 + n % 10] (by omega)]
        simp

theorem decBytes_lt10 {n : Nat} (h : n < 10) : decBytes n = [48 + n] := by
  rw [decBytes, decBytesCore, if_pos h]

theorem decBytes_ge10 {n : Nat} (h : 10 ≤ n) :
    decBytes n = decBytes (n / 10) ++ [48 + n % 10] := by
  have hdiv : n / 10 < n := Nat.div_lt_self (by omega) (by omega)
  conv_lhs => rw [decBytes, decBytesCore, if_neg (by omega),
    decBytesCore_eq (n / 10) n [48 + n % 10] (by omega)]

/-- Reads decimal ASCII digits back; a left inverse for `decBytes`. -/
def decVal (l : List Nat) : Nat :=
  l.foldl (fun a d => 10 * a + (d - 48)) 0

theorem decVal_decBytes (n : Nat) : decVal (decBytes n) = n := by
  induction n using Nat.strong_induction_on with
  | _ n ih =>
    by_cases h : n < 10
    · rw [decBytes_lt10 h]
      simp [decVal]
    · push_neg at h
      have hdiv : n / 10 < n := Nat.div_lt_self (by omega) (by omega)
      have hrec := ih (n / 10) hdiv
      rw [decBytes_ge10 h, decVal, List.foldl_append]
      rw [decVal] at hrec
      simp only [List.foldl_cons, List.foldl_nil, hrec]
      omega

theorem decBytes_injective : Function.Injective decBytes := by
  intro a b h
  have := congrArg decVal h
  rwa [decVal_decBytes, decVal_decBytes] at this

theorem mubKey_inj (pfx : List Nat) {i j : Nat}
    (h : mubKey pfx i = mubKey pfx j) : i = j :=
  decBytes_injective (List.append_cancel_left h)

theorem isPrefixOf_append_self (p l : List Nat) : p.isPrefixOf (p ++ l) = true := by
  induction p with
  | nil => simp [List.isPrefixOf]
  | cons x xs ih => simp [List.isPrefixOf, ih]

/-! The entries written by `set_maps_used_by`. -/

def mubPairs (pfx : List Nat) (ids : List Nat) : SledTree :=
  ids.enum.map fun p => (mubKey pfx p.1, u32_to_ne_bytes p.2)

theorem set_maps_used_by_eq (pfx ids : List Nat) (t : SledTree) :
    set_maps_used_by pfx ids t =
      insertPairs (clear_maps_used_by pfx t) (mubPairs pfx ids) := by
  simp only [set_maps_used_by, insertPairs, mubPairs, List.foldl_map]

theorem mubPairs_keys_nodup (pfx ids : List Nat) :
    ((mubPairs pfx ids).map Prod.fst).Nodup := by
  rw [mubPairs, List.map_map]
  have h1 : (Prod.fst ∘ fun p : Nat × Nat => (mubKey pfx p.1, u32_to_ne_bytes p.2)) =
      mubKey pfx ∘ Prod.fst := rfl
  rw [h1, ← List.map_map, List.enum_map_fst]
  exact (List.nodup_range _).map fun a b h => mubKey_inj pfx h

theorem mem_mubPairs_key_prefixed {pfx ids : List Nat} {x : List Nat × List Nat}
    (h : x ∈ mubPairs pfx ids) : pfx.isPrefixOf x.1 = true := by
  obtain ⟨p, _, rfl⟩ := List.mem_map.mp h
  exact isPrefixOf_append_self pfx _

theorem TreeWF.clear {t : SledTree} (h : TreeWF t) (pfx : List Nat) :
    TreeWF (clear_maps_used_by pfx t) :=
  List.Pairwise.filter _ h

theorem mem_clear_iff (pfx : List Nat) (t : SledTree) (x : List Nat × List Nat) :
    x ∈ clear_maps_used_by pfx t ↔ x ∈ t ∧ pfx.isPrefixOf x.1 = false := by
  rw [clear_maps_used_by, List.mem_filter]
  simp

theorem mem_scan_iff (pfx : List Nat) (t : SledTree) (x : List Nat × List Nat) :
    x ∈ sled_scan_prefixed pfx t ↔ x ∈ t ∧ pfx.isPrefixOf x.1 = true := by
  rw [sled_scan_prefixed, List.mem_filter]

theorem TreeWF.set_maps_used_by {t : SledTree} (h : TreeWF t)
    (pfx ids : List Nat) : TreeWF (Bpfman.set_maps_used_by pfx ids t) := by
  rw [set_maps_used_by_eq]
  exact (h.clear pfx).insertPairs _

theorem mem_set_maps_used_by {pfx ids : List Nat} {t : SledTree}
    (ht : TreeWF t) (x : List Nat × List Nat) :
    x ∈ set_maps_used_by pfx ids t ↔
      x ∈ mubPairs pfx ids ∨ (x ∈ t ∧ pfx.isPrefixOf x.1 = false) := by
  rw [set_maps_used_by_eq,
    mem_insertPairs_iff (ht.clear pfx) (mubPairs_keys_nodup pfx ids) x]
  constructor
  · rintro (h | ⟨hc, _⟩)
    · exact Or.inl h
    · exact Or.inr ((mem_clear_iff pfx t x).mp hc)
  · rintro (h | ⟨hxt, hnp⟩)
    · exact Or.inl h
    · refine Or.inr ⟨(mem_clear_iff pfx t x).mpr ⟨hxt, hnp⟩, ?_⟩
      intro hk
      obtain ⟨y, hy, hyx⟩ := List.mem_map.mp hk
      have hpref := mem_mubPairs_key_prefixed hy
      rw [hyx, hnp] at hpref
      cases hpref

theorem treeWF_ext {t1 t2 : SledTree} (h1 : TreeWF t1) (h2 : TreeWF t2)
    (hm : ∀ x, x ∈ t1 ↔ x ∈ t2) : t1 = t2 :=
  List.eq_of_perm_of_sorted ((List.perm_ext_iff_of_nodup h1.nodup h2.nodup).mpr hm)
    ((treeWF_iff t1).mp h1) ((treeWF_iff t2).mp h2)

theorem u32_roundtrip {v : Nat} (h : v < 4294967296) :
    bytes_to_u32 (u32_to_ne_bytes v) = v := by
  have he : bytes_to_u32 (u32_to_ne_bytes v) =
      v % 256 + 256 * (v / 256 % 256) + 65536 * (v / 65536 % 256) +
        16777216 * (v / 16777216 % 256) := rfl
  rw [he]
  omega

/-- The prefix `PREFIX_MAPS_USED_BY` as bytes: the constant is defined
outside `src/`; these are the ASCII bytes of a maps-used-by key prefix,
used for concrete instances.  Any other prefix works identically. -/
def mapsUsedByPfx : List Nat :=
  [109, 97, 112, 115, 95, 117, 115, 101, 100, 95, 98, 121, 95]

/-- C10 counterexample: with eleven entries, `get_maps_used_by` after
`set_maps_used_by` does not return `ids` itself — the key for index 10
sorts lexicographically between the keys for indexes 1 and 2, so the
values come back in the order 0, 1, 10, 2, ..., 9. -/
theorem maps_used_by_order_counterexample :
    get_maps_used_by mapsUsedByPfx
        (set_maps_used_by mapsUsedByPfx
          [20, 21, 22, 23, 24, 25, 26, 27, 28, 29, 30] []) ≠
      [20, 21, 22, 23, 24, 25, 26, 27, 28, 29, 30] := by
  decide

/-- C10 (amended): `set_maps_used_by` fully replaces the stored list —
after `set_maps_used_by ids`, `get_maps_used_by` returns exactly the
elements of `ids` up to order (the entries come back sorted by their
string keys, so with eleven or more entries the order differs from
`ids`), with no leftover entries from earlier lists; and setting the
same `ids` twice equals setting it once. -/
theorem maps_used_by_replace (pfx ids : List Nat) (t : SledTree)
    (ht : TreeWF t) (hb : ∀ v ∈ ids, v < 4294967296) :
    (get_maps_used_by pfx (set_maps_used_by pfx ids t)).Perm ids
    ∧ set_maps_used_by pfx ids (set_maps_used_by pfx ids t) =
        set_maps_used_by pfx ids t := by
  constructor
  · have hperm : (sled_scan_prefixed pfx (set_maps_used_by pfx ids t)).Perm
        (mubPairs pfx ids) := by
      refine (List.perm_ext_iff_of_nodup ?_ ?_).mpr ?_
      · exact ((ht.set_maps_used_by pfx ids).nodup).filter _
      · exact (mubPairs_keys_nodup pfx ids).of_map
      · intro x
        rw [mem_scan_iff, mem_set_maps_used_by ht]
        constructor
        · rintro ⟨h | ⟨_, hf⟩, hp⟩
          · exact h
          · rw [hf] at hp
            cases hp
        · intro h
          exact ⟨Or.inl h, mem_mubPairs_key_prefixed h⟩
    have hmap := hperm.map fun kv : List Nat × List Nat => bytes_to_u32 kv.2
    rw [get_maps_used_by]
    refine hmap.trans ?_
    rw [mubPairs, List.map_map]
    have hfun : ((fun kv : List Nat × List Nat => bytes_to_u32 kv.2) ∘
        fun p : Nat × Nat => (mubKey pfx p.1, u32_to_ne_bytes p.2)) =
        fun p : Nat × Nat => bytes_to_u32 (u32_to_ne_bytes p.2) := rfl
    rw [hfun]
    have hcong : ∀ p ∈ ids.enum,
        bytes_to_u32 (u32_to_ne_bytes p.2) = Prod.snd p := by
      intro p hp
      have hv : p.2 ∈ ids := by
        have hsnd := List.enum_map_snd ids
        exact hsnd ▸ List.mem_map_of_mem Prod.snd hp
      exact u32_roundtrip (hb p.2 hv)
    rw [List.map_congr_left hcong, List.enum_map_snd]
  · have ht' := ht.set_maps_used_by pfx ids
    refine treeWF_ext (ht'.set_maps_used_by pfx ids) ht' ?_
    intro x
    rw [mem_set_maps_used_by ht', mem_set_maps_used_by ht]
    constructor
    · rintro (h | ⟨h | ⟨hxt, hf'⟩, hf⟩)
      · exact Or.inl h
      · rw [mem_mubPairs_key_prefixed h] at hf
        cases hf
      · exact Or.inr ⟨hxt, hf'⟩
    · rintro (h | ⟨hxt, hf⟩)
      · exact Or.inl h
      · exact Or.inr ⟨Or.inr ⟨hxt, hf⟩, hf⟩

/-- Witness for `maps_used_by_replace`: a concrete overwrite of a
longer stored list by a shorter one with a duplicate value. -/
theorem maps_used_by_replace_witness :
    (get_maps_used_by mapsUsedByPfx
        (set_maps_used_by mapsUsedByPfx [5, 5, 7]
          (set_maps_used_by mapsUsedByPfx [1, 2, 3, 4] []))).Perm [5, 5, 7]
    ∧ set_maps_used_by mapsUsedByPfx [5, 5, 7]
        (set_maps_used_by mapsUsedByPfx [5, 5, 7]
          (set_maps_used_by mapsUsedByPfx [1, 2, 3, 4] [])) =
      set_maps_used_by mapsUsedByPfx [5, 5, 7]
        (set_maps_used_by mapsUsedByPfx [1, 2, 3, 4] []) :=
  maps_used_by_replace mapsUsedByPfx [5, 5, 7]
    (set_maps_used_by mapsUsedByPfx [1, 2, 3, 4] [])
    (TreeWF.set_maps_used_by (by simp [TreeWF]) mapsUsedByPfx [1, 2, 3, 4])
    (by decide)

/-- Witness for `proceed_on_mask_bits`: bit 31 is set in the default
XDP mask. -/
theorem proceed_on_mask_bits_witness :
    (XdpProceedOn.mask ⟨[.Pass, .DispatcherReturn]⟩).testBit 31 = true :=
  (proceed_on_mask_bits.1 [.Pass, .DispatcherReturn] 31).mpr
    ⟨.DispatcherReturn, by decide, rfl⟩

/-- Witness for `unsupported_matches_characterisation`: an unsupported
program with kernel type 28 matches a filter requesting type 28. -/
theorem unsupported_matches_characterisation_witness :
    (ListFilter.mk (some 28) [] false).matches ⟨.Unsupported, some 28, []⟩ = true :=
  (unsupported_matches_characterisation (some 28) []
      (ListFilter.mk (some 28) [] false)).mpr
    ⟨rfl, rfl, fun t ht => by cases ht; rfl⟩

/-- Witness for `daemon_kind_filtering`: a daemon XDP program whose
kernel type is Ext still matches a filter requesting type 6 (xdp). -/
theorem daemon_kind_filtering_witness :
    (ListFilter.mk (some 6) [] false).matches ⟨.Xdp, some 28, []⟩ = true :=
  (daemon_kind_filtering.2.1 6 (some 28) [] false).1.mpr rfl

/-- Witness for `set_retprobe_roundtrip` at `true`. -/
theorem set_retprobe_roundtrip_witness :
    KprobeProgram.get_retprobe_of
      (some (KprobeProgram.set_retprobe_stored true)) = true :=
  (set_retprobe_roundtrip true).2.1

end Bpfman
